import Mathlib

/-!
Formal model of the Sol-Radar system: the backend ingest/extract/synthesize
pipeline (content deduplication, the extractor retry state machine, narrative
upsert-by-title, velocity scoring and the staleness lifecycle) and the
frontend data-normalization layer (`lib/api.ts`, `lib/http.ts`,
`hooks/use-seira-chat.ts`).

Machine integers and JS numbers are modelled with `Nat`/`Int`/`ℚ`; fallible
code returns `Option`/`Except`; stateful code is explicit state passing.
-/

namespace SolRadar

/-! ### Chat history storage (`hooks/use-seira-chat.ts`) -/

/-- A chat message, from `ChatMessage` in `lib/api-types.ts`. -/
structure ChatMessage where
  role : String
  content : String
deriving DecidableEq, Repr

/-- Constant `MAX_STORED_MESSAGES` in `hooks/use-seira-chat.ts`. -/
def MAX_STORED_MESSAGES : Nat := 100

/-- The possible observable states of `localStorage[STORAGE_KEY]` as seen
through `JSON.parse`: the key is missing, the stored text is not valid JSON,
it is valid JSON but not an array, or it is a JSON array of messages.
The JSON text layer is modelled by its parse result: `JSON.parse` applied to
`JSON.stringify` of a plain message array returns that array, and the
`malformed` / `nonArray` constructors are the two failure branches the source
checks (`try { JSON.parse } catch` and `Array.isArray`). -/
inductive StoredChat where
  | missing
  | malformed
  | nonArray
  | stored (messages : List ChatMessage)
deriving DecidableEq, Repr

/-- JS `list.slice(-k)` on an array: the last `k` elements (the whole list
when it has fewer than `k`). -/
def sliceLast (k : Nat) (l : List α) : List α := l.drop (l.length - k)

/-- Function `saveMessages` from `hooks/use-seira-chat.ts`: stores
`messages.slice(-MAX_STORED_MESSAGES)`. -/
def saveMessages (messages : List ChatMessage) : StoredChat :=
  .stored (sliceLast MAX_STORED_MESSAGES messages)

/-- Function `loadMessages` from `hooks/use-seira-chat.ts`: returns `[]` when the key
is missing, the data is corrupt, or the parse result is not an array;
otherwise returns `parsed.slice(-MAX_STORED_MESSAGES)`. -/
def loadMessages : StoredChat → List ChatMessage
  | .missing => []
  | .malformed => []
  | .nonArray => []
  | .stored parsed => sliceLast MAX_STORED_MESSAGES parsed

/-! ### String helpers

Structurally recursive counterparts of the library string operations the
embedded code uses (`trim`, whitespace splitting, `split(".")`,
`startsWith`), working over the character list of the string. -/

/-- Split a character list into its maximal whitespace-free words; the
accumulator holds the current word reversed. -/
def wordsAux : List Char → List Char → List (List Char)
  | [], acc => if acc.isEmpty then [] else [acc.reverse]
  | c :: cs, acc =>
    if c.isWhitespace then
      if acc.isEmpty then wordsAux cs [] else acc.reverse :: wordsAux cs []
    else wordsAux cs (c :: acc)

/-- Lower-case a string character by character. -/
def toLowerStr (s : String) : String := String.mk (s.data.map Char.toLower)

/-- Strip leading and trailing whitespace from a character list. -/
def trimChars (cs : List Char) : List Char :=
  ((cs.dropWhile Char.isWhitespace).reverse.dropWhile Char.isWhitespace).reverse

/-- JS `s.trim()`. -/
def jsTrim (s : String) : String := String.mk (trimChars s.data)

/-- Split a character list at every dot, like `"a.b".split(".")`:
`splitOnDot "a.b".data = ["a".data, "b".data]` and the empty list splits to
one empty part. -/
def splitOnDot : List Char → List (List Char)
  | [] => [[]]
  | c :: cs =>
    if c = '.' then [] :: splitOnDot cs
    else
      match splitOnDot cs with
      | [] => [[c]]
      | p :: ps => (c :: p) :: ps

/-- Whether the string starts with a slash (`path.startsWith("/")`). -/
def startsWithSlash (s : String) : Bool :=
  match s.data with
  | c :: _ => c = '/'
  | [] => false

/-! ### Content store and deduplication (backend, spec section 4.1) -/

/-- Whitespace-collapsed, lower-cased normalization of raw text.
Modelled from the spec: section 4.1 says the content hash is computed "from
normalized text (whitespace-collapsed, lower-cased)"; the backend Python
implementation is not part of the shipped sources. -/
def normalizeText (s : String) : String :=
  String.mk (List.intercalate [' '] (wordsAux (s.data.map Char.toLower) []))

/-- Modelled from the spec: `contentHash` is a "content-addressed fingerprint,
e.g. SHA-256 of normalized text" (spec section 3). The SHA-256 digest is
modelled by the normalized text itself, an injective fingerprint, which is
the property the spec relies on for deduplication. -/
def contentHash (rawText : String) : String := normalizeText rawText

/-- Processing status of a `ContentItem` (spec section 3). -/
inductive ContentStatus where
  | pending
  | processing
  | completed
  | failed
  | skipped
deriving DecidableEq, Repr

/-- A harvested content row (spec section 3), restricted to the attributes
the pipeline logic reads. -/
structure ContentItem where
  sourceId : String
  sourceType : String
  rawText : String
  url : String
  contentHash : String
  status : ContentStatus
  attemptCount : Nat
deriving DecidableEq, Repr

/-- A raw item produced by a fetch adapter (spec section 6). -/
structure RawItem where
  text : String
  url : String
  sourceId : String
  sourceType : String
deriving DecidableEq, Repr

/-- Outcome of `ingest` (spec section 4.1). -/
inductive IngestResult where
  | accepted
  | duplicate
deriving DecidableEq, Repr

/-- Whether the store already holds a row with the given content hash. -/
def hasHash (store : List ContentItem) (h : String) : Bool :=
  store.any (fun it => it.contentHash = h)

/-- Modelled from the spec: `ingest(rawItem)` (section 4.1). Computes
`contentHash` from the normalized text before insertion; if a row with that
hash exists it returns `duplicate` and performs no write; on `accepted` the
row is created with `status = pending` and `attemptCount = 0`. -/
def ingest (store : List ContentItem) (raw : RawItem) : List ContentItem × IngestResult :=
  let h := contentHash raw.text
  if hasHash store h then (store, .duplicate)
  else (store ++ [⟨raw.sourceId, raw.sourceType, raw.text, raw.url, h, .pending, 0⟩], .accepted)

/-! ### Signal extractor retry state machine (backend, spec section 4.2) -/

/-- Modelled from the spec: one extraction attempt that ends in a transient
failure (section 4.2). The worker claims the item (`pending → processing`),
the attempt fails transiently, `attemptCount` is incremented, and the item
reverts to `pending` when the incremented count is below 3, else transitions
to the terminal `failed`. Items not in `pending` are never claimed, so
terminal states are left untouched (never auto-retried). -/
def transientAttempt (it : ContentItem) : ContentItem :=
  if it.status = .pending then
    let n := it.attemptCount + 1
    { it with attemptCount := n, status := if n < 3 then .pending else .failed }
  else it

/-! ### Narrative synthesizer: upsert by title (backend, spec section 4.3) -/

/-- Title normalization used as the narrative merge key: case-insensitive,
whitespace-normalized exact match (spec section 4.3 step 3). -/
def normalizeTitle (t : String) : String := normalizeText t

/-- A narrative row (spec section 3), restricted to the attributes the
upsert and lifecycle logic touches. Timestamps are integers (days). -/
structure Narrative where
  title : String
  summary : String
  confidence : String
  tags : List String
  isActive : Bool
  createdAt : Int
  lastDetectedAt : Int
  updatedAt : Int
deriving DecidableEq, Repr

/-- An evidence link joining a narrative (by its normalized-title merge key)
to a signal, with its own quoted text (spec section 3). -/
structure EvidenceLink where
  narrativeKey : String
  signalId : Nat
  evidenceText : String
deriving DecidableEq, Repr

/-- One candidate narrative parsed from the model response
(spec section 4.3 step 2). -/
structure CandidateNarrative where
  title : String
  summary : String
  confidence : String
  tags : List String
  evidence : List (Nat × String)
deriving DecidableEq, Repr

/-- The narrative table together with its evidence links. -/
structure NarrativeStore where
  narratives : List Narrative
  links : List EvidenceLink
deriving DecidableEq, Repr

/-- The evidence links contributed by one candidate under its merge key. -/
def candidateLinks (key : String) (c : CandidateNarrative) : List EvidenceLink :=
  c.evidence.map (fun e => ⟨key, e.1, e.2⟩)

/-- Modelled from the spec: upsert by title (section 4.3 step 3). If a
narrative whose normalized title matches exists, update its
summary/confidence/tags/`updatedAt`, set `lastDetectedAt = now`, and append
the new evidence links without deleting prior ones; reactivation on new
evidence is automatic (lifecycle rule, section 4.4), modelled by setting
`isActive := true` on update. If absent, insert a new narrative with
`isActive = true`. -/
def upsertNarrative (store : NarrativeStore) (c : CandidateNarrative) (now : Int) :
    NarrativeStore :=
  let key := normalizeTitle c.title
  let newLinks := candidateLinks key c
  if store.narratives.any (fun n => normalizeTitle n.title = key) then
    { narratives := store.narratives.map (fun n =>
        if normalizeTitle n.title = key then
          { n with
            summary := c.summary
            confidence := c.confidence
            tags := c.tags
            isActive := true
            lastDetectedAt := now
            updatedAt := now }
        else n)
      links := store.links ++ newLinks }
  else
    { narratives := store.narratives ++
        [⟨c.title, c.summary, c.confidence, c.tags, true, now, now, now⟩]
      links := store.links ++ newLinks }

/-! ### Velocity scoring and lifecycle (backend, spec section 4.4) -/

/-- Novelty rating of a signal (spec section 3). -/
inductive Novelty where
  | high
  | medium
  | low
deriving DecidableEq, Repr

/-- Modelled from the spec: per-signal novelty weight, high = 1.0,
medium = 0.6, low = 0.3 (section 4.4). -/
def noveltyWeight : Novelty → ℚ
  | .high => 1
  | .medium => 0.6
  | .low => 0.3

/-- Modelled from the spec: mean of the novelty weights over the linked
signals (section 4.4); 0 when there are no linked signals. -/
def noveltyAvg (novelties : List Novelty) : ℚ :=
  if novelties.length = 0 then 0
  else (novelties.map noveltyWeight).sum / novelties.length

/-- Modelled from the spec: decay from 1.0, reduced by the configured daily
decay rate for each day since `lastDetectedAt`, never negative, floored at 0
(section 4.4; the backend README quotes a 10 percent daily rate). -/
def recencyFactor (decayRatePerDay daysSinceLastDetected : ℚ) : ℚ :=
  max 0 (1 - decayRatePerDay * daysSinceLastDetected)

/-- Modelled from the spec: the velocity score of an active narrative
(section 4.4): `0.4 * min(signalCount, 50) + 0.3 * min(sourceDiversity, 10)
+ 0.2 * recencyFactor + 0.1 * noveltyAvg`. -/
def velocityScore (signalCount sourceDiversity : Nat)
    (decayRatePerDay daysSinceLastDetected : ℚ) (novelties : List Novelty) : ℚ :=
  0.4 * min (signalCount : ℚ) 50
    + 0.3 * min (sourceDiversity : ℚ) 10
    + 0.2 * recencyFactor decayRatePerDay daysSinceLastDetected
    + 0.1 * noveltyAvg novelties

/-- The staleness threshold, in days (spec section 4.4). -/
def stalenessThresholdDays : Int := 7

/-- Modelled from the spec: the lifecycle pass (section 4.4): every narrative
with `now - lastDetectedAt > staleness threshold` is set `isActive = false`;
others are left unchanged. -/
def lifecyclePass (store : NarrativeStore) (now : Int) : NarrativeStore :=
  { store with
    narratives := store.narratives.map (fun n =>
      if now - n.lastDetectedAt > stalenessThresholdDays then
        { n with isActive := false }
      else n) }

/-! ### JavaScript value model for the frontend (`lib/api.ts`, `lib/http.ts`) -/

/-- A JS number: finite values are rationals (the exact arithmetic the
relevant code performs stays in range), plus the non-finite values `NaN`
and the infinities, which `Number.isFinite` rejects. -/
inductive JsNumber where
  | finite (q : ℚ)
  | nan
  | inf
  | negInf
deriving DecidableEq, Repr

/-- An untyped JS value as it arrives from `JSON.parse` of an API response
(plus `undefined` for absent properties). -/
inductive JsValue where
  | jsUndefined
  | jnull
  | bool (b : Bool)
  | num (x : JsNumber)
  | str (s : String)
  | arr (elems : List JsValue)
  | obj (fields : List (String × JsValue))
deriving Repr

/-- JS property access `v[key]` restricted to string-keyed object
properties: absent properties and non-objects give `undefined`; for
duplicate keys the last binding wins, as in parsed JSON. -/
def getProp (v : JsValue) (key : String) : JsValue :=
  match v with
  | .obj fields =>
    match fields.reverse.find? (fun f => f.1 = key) with
    | some f => f.2
    | none => .jsUndefined
  | _ => .jsUndefined

/-- Predicate `isRecord` from `lib/api.ts`: `typeof v === "object" && v !== null`.
Arrays are objects in JS, so they pass the check (their named properties
read as `undefined`). -/
def jsIsRecord : JsValue → Bool
  | .obj _ => true
  | .arr _ => true
  | _ => false

/-- Rendering of a finite JS number as a string. Integers render exactly as
JS does; the non-integer case is an approximation of JS float formatting
(always a non-empty decimal-like string), which no proved property depends
on. -/
def jsNumberToString : JsNumber → String
  | .nan => "NaN"
  | .inf => "Infinity"
  | .negInf => "-Infinity"
  | .finite q => if q.den = 1 then toString q.num else toString q

/-- JS `String(v)` conversion. Arrays render as their elements joined with
commas, with `null` and `undefined` elements rendering empty, as
`Array.prototype.toString` does; plain objects render `[object Object]`. -/
def jsToString : JsValue → String
  | .jsUndefined => "undefined"
  | .jnull => "null"
  | .bool b => if b then "true" else "false"
  | .num x => jsNumberToString x
  | .str s => s
  | .obj _ => "[object Object]"
  | .arr l =>
    String.intercalate "," (l.attach.map (fun e =>
      match e with
      | ⟨.jnull, _⟩ => ""
      | ⟨.jsUndefined, _⟩ => ""
      | ⟨v, _⟩ => jsToString v))

/-- Accumulate a decimal digit string into a natural number; `none` when a
non-digit appears. -/
def parseDigits (cs : List Char) : Option Nat :=
  cs.foldl
    (fun acc c =>
      match acc with
      | none => none
      | some n => if c.isDigit then some (n * 10 + (c.toNat - 48)) else none)
    (some 0)

/-- JS `Number(s)` on a string, for the decimal fragment: optional leading
sign, integer digits, optional fractional part, surrounding whitespace
trimmed; the empty (or all-whitespace) string converts to 0, anything else
that does not parse gives `NaN`. Exponent, hexadecimal, binary and octal
literal forms are not modelled. -/
def jsStringToNumber (s : String) : JsNumber :=
  let t := jsTrim s
  if t = "" then .finite 0
  else
    let (sign, rest) : Int × List Char :=
      match t.data with
      | '-' :: cs => (-1, cs)
      | '+' :: cs => (1, cs)
      | cs => (1, cs)
    match splitOnDot rest with
    | [intPart] =>
      if intPart.isEmpty then .nan
      else
        match parseDigits intPart with
        | some n => .finite ((sign : ℚ) * n)
        | none => .nan
    | [intPart, fracPart] =>
      if intPart.isEmpty ∧ fracPart.isEmpty then .nan
      else
        match parseDigits intPart, parseDigits fracPart with
        | some i, some f =>
          .finite ((sign : ℚ) * ((i : ℚ) + (f : ℚ) / (10 : ℚ) ^ fracPart.length))
        | _, _ => .nan
    | _ => .nan

/-! ### Frontend response normalization (`lib/api.ts`) -/

/-- A normalized evidence entry, from `Evidence` in `lib/api-types.ts`. -/
structure Evidence where
  evidence : String
  signal_id : ℚ
  content_url : String
  source_name : String
  signal_title : String
deriving DecidableEq, Repr

/-- Function `normalizeStringArray` from `lib/api.ts`: non-arrays become `[]`; array
elements are kept as-is when strings and otherwise converted with
`String(x)`; `filter(Boolean)` then drops empty strings. -/
def normalizeStringArray (v : JsValue) : List String :=
  match v with
  | .arr l =>
    (l.map (fun x =>
      match x with
      | .str s => s
      | other => jsToString other)).filter (fun s => s ≠ "")
  | _ => []

/-- Function `normalizeEvidenceItem` from `lib/api.ts`: requires a record; `evidence`
must be a truthy string; `signal_id` is taken as-is when a number, from
`Number(s)` when a string with non-empty trim, and `NaN` otherwise; the
entry is dropped unless `Number.isFinite(signal_id)`; the three descriptive
fields default to the empty string when not strings. -/
def normalizeEvidenceItem (v : JsValue) : Option Evidence :=
  if jsIsRecord v then
    let evidence : Option String :=
      match getProp v "evidence" with
      | .str s => some s
      | _ => none
    let signalId : JsNumber :=
      match getProp v "signal_id" with
      | .num x => x
      | .str s => if jsTrim s ≠ "" then jsStringToNumber s else .nan
      | _ => .nan
    let contentUrl := match getProp v "content_url" with | .str s => s | _ => ""
    let sourceName := match getProp v "source_name" with | .str s => s | _ => ""
    let signalTitle := match getProp v "signal_title" with | .str s => s | _ => ""
    match evidence, signalId with
    | some e, .finite q =>
      if e = "" then none
      else some ⟨e, q, contentUrl, sourceName, signalTitle⟩
    | _, _ => none
  else none

/-- The evidence filter as the specification words it: an entry is kept
exactly when its `evidence` field is a non-empty string and its `signal_id`
is a finite number (a numeric string is parsed, anything else dropped), with
the missing descriptive fields defaulting to the empty string. Stated
separately from `normalizeEvidenceItem` to compare against it. -/
def evidenceItemSpec (v : JsValue) : Option Evidence :=
  if jsIsRecord v then
    let descOrEmpty : String → String := fun key =>
      match getProp v key with
      | .str s => s
      | _ => ""
    match getProp v "evidence", getProp v "signal_id" with
    | .str e, .num (.finite q) =>
      if e ≠ "" then
        some ⟨e, q, descOrEmpty "content_url", descOrEmpty "source_name",
          descOrEmpty "signal_title"⟩
      else none
    | .str e, .str sid =>
      match jsStringToNumber sid with
      | .finite q =>
        if e ≠ "" ∧ jsTrim sid ≠ "" then
          some ⟨e, q, descOrEmpty "content_url", descOrEmpty "source_name",
            descOrEmpty "signal_title"⟩
        else none
      | _ => none
    | _, _ => none
  else none

/-- The raw narrative payload fed to `normalizeNarrative`: the fields it
rewrites are kept untyped (`JsValue`), since the backend value may be absent
or of the wrong type; `rank` is `number | null` as in `lib/api-types.ts`. -/
structure RawNarrative where
  id : ℚ
  title : String
  summary : String
  velocity_score : ℚ
  rank : Option ℚ
  idea_count : JsValue
  tags : JsValue
  supporting_source_names : JsValue
  key_evidence : JsValue
  ideas : JsValue
  created_at : String
deriving Repr

/-- The narrative record `normalizeNarrative` delivers to the UI. -/
structure FrontNarrative where
  id : ℚ
  title : String
  summary : String
  velocity_score : ℚ
  rank : Option ℚ
  idea_count : JsNumber
  tags : List String
  supporting_source_names : List String
  key_evidence : List Evidence
  ideas : List JsValue
  created_at : String
deriving Repr

/-- Function `normalizeNarrative` from `lib/api.ts`: `key_evidence` keeps the entries
`normalizeEvidenceItem` accepts (`map` then `filter(Boolean)`), `tags` and
`supporting_source_names` go through `normalizeStringArray`, `ideas` is the
raw array or `[]`, `idea_count` is the raw value when a number and otherwise
the length of `ideas`, and `rank` is `n.rank ?? fallbackRank ?? null`. -/
def normalizeNarrative (n : RawNarrative) (fallbackRank : Option ℚ) : FrontNarrative :=
  let key_evidence :=
    match n.key_evidence with
    | .arr l => l.filterMap normalizeEvidenceItem
    | _ => []
  let tags := normalizeStringArray n.tags
  let supporting := normalizeStringArray n.supporting_source_names
  let ideas : List JsValue :=
    match n.ideas with
    | .arr l => l
    | _ => []
  { id := n.id
    title := n.title
    summary := n.summary
    velocity_score := n.velocity_score
    rank :=
      match n.rank with
      | some r => some r
      | none => fallbackRank
    idea_count :=
      match n.idea_count with
      | .num x => x
      | _ => .finite (ideas.length : ℚ)
    tags := tags
    supporting_source_names := supporting
    key_evidence := key_evidence
    ideas := ideas
    created_at := n.created_at }

/-! ### HTTP client (`lib/http.ts`) -/

/-- A query parameter value (`QueryValue` in `lib/http.ts`):
`string | number | boolean | null | undefined`. -/
inductive QueryValue where
  | str (s : String)
  | num (x : JsNumber)
  | bool (b : Bool)
  | jnull
  | jsUndefined
deriving Repr

/-- Whether a query value is `undefined` or `null` (the values `buildUrl`
skips). -/
def QueryValue.isNullish : QueryValue → Bool
  | .jnull => true
  | .jsUndefined => true
  | _ => false

/-- JS `String(v)` on a query value. -/
def queryValueToString : QueryValue → String
  | .str s => s
  | .num x => jsNumberToString x
  | .bool b => if b then "true" else "false"
  | .jnull => "null"
  | .jsUndefined => "undefined"

/-- JS `replace(/\/+$/, "")`: drop every trailing slash. -/
def stripTrailingSlashes (s : String) : String :=
  String.mk (s.data.reverse.dropWhile (fun c => c = '/')).reverse

/-- Render the collected search params; keys are assumed distinct (they come
from `Object.entries` of an object literal), so `searchParams.set` appends
in order. Percent-encoding is not modelled. -/
def renderQuery (params : List (String × String)) : String :=
  match params with
  | [] => ""
  | _ => "?" ++ String.intercalate "&" (params.map (fun kv => kv.1 ++ "=" ++ kv.2))

/-- Function `buildUrl` from `lib/http.ts`: strips trailing slashes from the base,
throws when the base is empty, prefixes the path with `/` when needed, and
sets each query parameter, skipping `undefined` and `null` values. -/
def buildUrl (apiUrl path : String) (query : List (String × QueryValue)) :
    Except String String :=
  let base := stripTrailingSlashes apiUrl
  let fullPath := if startsWithSlash path then path else "/" ++ path
  if base = "" then .error "NEXT_PUBLIC_API_URL is not set"
  else
    let kept := query.filter (fun kv => ¬kv.2.isNullish)
    .ok (base ++ fullPath ++ renderQuery (kept.map (fun kv => (kv.1, queryValueToString kv.2))))

/-- A fetch response as `apiGet` observes it: its status code, the JSON
parse of the body (`none` when `res.json()` would throw), and the body text
(`none` when `res.text()` would throw). `res.ok` is derived:
status in 200..299. -/
structure HttpResponse where
  status : Nat
  jsonBody : Option JsValue
  textBody : Option String

/-- Property `res.ok` of the Fetch API: `200 ≤ status ≤ 299`. -/
def HttpResponse.ok (res : HttpResponse) : Bool :=
  200 ≤ res.status ∧ res.status ≤ 299

/-- The `body` value attached to an `HttpError`: the parsed JSON body when
available, else the text body, else `undefined`. -/
inductive ErrorBody where
  | json (v : JsValue)
  | text (s : String)
  | jsUndefined
deriving Repr

/-- The ways `apiGet` can reject: the `HttpError` it throws on a non-ok
response (carrying the response status), the error `res.json()` raises when
an ok response body is not valid JSON, and the `Error` `buildUrl` throws
when the API base URL is unset. -/
inductive ApiFailure where
  | httpError (message : String) (status : Nat) (body : ErrorBody)
  | bodyNotJson (status : Nat)
  | urlError (message : String)
deriving Repr

/-- Function `apiGet` from `lib/http.ts`, with the `fetch` effect passed in as a
function from the request URL to its response: builds the URL (propagating
the unset-base throw without fetching), fetches, throws `HttpError` with
the response status and best-effort body on a non-ok response, and
otherwise returns the JSON-parsed body (rejecting when it does not parse,
as `res.json()` does). -/
def apiGet (apiUrl path : String) (query : List (String × QueryValue))
    (fetch : String → HttpResponse) : Except ApiFailure JsValue :=
  match buildUrl apiUrl path query with
  | .error m => .error (.urlError m)
  | .ok url =>
    let res := fetch url
    if res.ok then
      match res.jsonBody with
      | some v => .ok v
      | none => .error (.bodyNotJson res.status)
    else
      let body : ErrorBody :=
        match res.jsonBody with
        | some v => .json v
        | none =>
          match res.textBody with
          | some s => .text s
          | none => .jsUndefined
      .error (.httpError ("GET " ++ path ++ " failed (" ++ toString res.status ++ ")")
        res.status body)

/-- A concrete backend response narrative that carries a `rank` field, as
`Narrative` in `lib/api-types.ts` declares (`rank: number | null`) and the
mock data in `lib/mock-data.ts` stores. -/
def rankedResponseNarrative : RawNarrative :=
  { id := 5
    title := "Institutional RWA Tokenization Explosion"
    summary := "s"
    velocity_score := 5.1
    rank := some 5
    idea_count := .jsUndefined
    tags := .jsUndefined
    supporting_source_names := .jsUndefined
    key_evidence := .jsUndefined
    ideas := .jsUndefined
    created_at := "2026-02-15T11:15:36Z" }

/-- A backend response narrative with ill-typed and partially valid fields,
exercising the normalization paths. -/
def messyResponseNarrative : RawNarrative :=
  { id := 7
    title := "t"
    summary := "s"
    velocity_score := 2
    rank := none
    idea_count := .jnull
    tags := .arr [.str "solana", .str "", .jnull]
    supporting_source_names := .arr [.str "reddit", .str ""]
    key_evidence := .arr [.obj [("evidence", .str "q"), ("signal_id", .num (.finite 5))],
      .obj [("evidence", .str "")], .jnull]
    ideas := .str "oops"
    created_at := "2026-02-15" }

/-! ## Theorems -/

/-- C9: saving any list of `n` chat messages and loading it back returns
exactly the last `min(n, 100)` messages of that list, and loading a
missing, corrupt (not valid JSON), or non-array stored value returns the
empty list without failing. -/
theorem chatHistory_roundTrip_cap :
    (∀ l : List ChatMessage,
        loadMessages (saveMessages l) = l.drop (l.length - MAX_STORED_MESSAGES) ∧
        (loadMessages (saveMessages l)).length = min l.length MAX_STORED_MESSAGES) ∧
    loadMessages .missing = [] ∧
    loadMessages .malformed = [] ∧
    loadMessages .nonArray = [] := by
  refine ⟨fun l => ?_, rfl, rfl, rfl⟩
  have key : loadMessages (saveMessages l) = l.drop (l.length - MAX_STORED_MESSAGES) := by
    show sliceLast MAX_STORED_MESSAGES (sliceLast MAX_STORED_MESSAGES l) = _
    unfold sliceLast
    rw [List.length_drop]
    have h0 : l.length - (l.length - MAX_STORED_MESSAGES) - MAX_STORED_MESSAGES = 0 := by
      omega
    rw [h0, List.drop_zero]
  refine ⟨key, ?_⟩
  rw [key, List.length_drop]
  omega

/-- A transient-failure attempt on a `pending` item below the cap: the count
goes up by one and the item reverts to `pending`. -/
theorem transientAttempt_pending_lt (it : ContentItem) (h : it.status = .pending)
    (hlt : it.attemptCount + 1 < 3) :
    (transientAttempt it).status = .pending ∧
    (transientAttempt it).attemptCount = it.attemptCount + 1 := by
  simp [transientAttempt, h, hlt]

/-- A transient-failure attempt on a `pending` item at the cap: the count
goes up by one and the item transitions to `failed`. -/
theorem transientAttempt_pending_ge (it : ContentItem) (h : it.status = .pending)
    (hge : ¬it.attemptCount + 1 < 3) :
    (transientAttempt it).status = .failed ∧
    (transientAttempt it).attemptCount = it.attemptCount + 1 := by
  simp [transientAttempt, h, hge]

/-- Items not in `pending` are never claimed again. -/
theorem transientAttempt_fixed (it : ContentItem) (h : it.status ≠ .pending) :
    transientAttempt it = it := by
  simp [transientAttempt, h]

/-- C2: a `ContentItem` whose extraction always fails transiently reverts
to `pending` (with the count incremented) while fewer than 3 attempts have
run, reaches the terminal `failed` state at exactly the third attempt with
`attemptCount = 3`, and is never changed by any further attempt. -/
theorem retry_bound (it : ContentItem) (hst : it.status = .pending)
    (hc : it.attemptCount = 0) :
    (transientAttempt^[3] it).status = .failed ∧
    (transientAttempt^[3] it).attemptCount = 3 ∧
    (∀ k, k < 3 → (transientAttempt^[k] it).status = .pending ∧
        (transientAttempt^[k] it).attemptCount = k) ∧
    (∀ m, 3 ≤ m → transientAttempt^[m] it = transientAttempt^[3] it) := by
  have h1 := transientAttempt_pending_lt it hst (by omega)
  rw [hc] at h1
  have h2 := transientAttempt_pending_lt (transientAttempt it) h1.1 (by omega)
  rw [h1.2] at h2
  have h3 := transientAttempt_pending_ge (transientAttempt (transientAttempt it)) h2.1
    (by omega)
  rw [h2.2] at h3
  have e3s : (transientAttempt^[3] it).status = .failed := by
    simpa [Function.iterate_succ_apply', Function.iterate_zero_apply] using h3.1
  have e3c : (transientAttempt^[3] it).attemptCount = 3 := by
    simpa [Function.iterate_succ_apply', Function.iterate_zero_apply] using h3.2
  refine ⟨e3s, e3c, ?_, ?_⟩
  · intro k hk
    match k, hk with
    | 0, _ => simpa [Function.iterate_zero_apply] using ⟨hst, hc⟩
    | 1, _ =>
      simpa [Function.iterate_succ_apply', Function.iterate_zero_apply] using ⟨h1.1, h1.2⟩
    | 2, _ =>
      simpa [Function.iterate_succ_apply', Function.iterate_zero_apply] using ⟨h2.1, h2.2⟩
  · intro m hm
    induction m with
    | zero => omega
    | succ n ih =>
      rcases Nat.lt_or_ge n 3 with hn | hn
      · have hn3 : n + 1 = 3 := by omega
        rw [hn3]
      · have hfix := ih (by omega)
        rw [Function.iterate_succ_apply', hfix]
        exact transientAttempt_fixed _ (by rw [e3s]; intro hcon; cases hcon)

/-- C2 witness: a fresh pending item with three failing attempts. -/
theorem retry_bound_witness :
    (transientAttempt^[3] ⟨"s1", "web", "text", "u", "h", .pending, 0⟩).status = .failed ∧
    (transientAttempt^[3] ⟨"s1", "web", "text", "u", "h", .pending, 0⟩).attemptCount = 3 := by
  have h := retry_bound ⟨"s1", "web", "text", "u", "h", .pending, 0⟩ rfl rfl
  exact ⟨h.1, h.2.1⟩

/-- C1: ingestion is idempotent. With no prior row carrying the hash of the
raw text, the first `ingest` reports `accepted`; a second `ingest` of the
same raw text — from any source, with any url or source metadata — reports
`duplicate`, performs no write (the store is unchanged), and the store holds
exactly one `ContentItem` with that content hash. -/
theorem ingest_idempotent (store : List ContentItem) (a b : RawItem)
    (htext : a.text = b.text)
    (hfresh : hasHash store (contentHash a.text) = false) :
    (ingest store a).2 = .accepted ∧
    (ingest (ingest store a).1 b).2 = .duplicate ∧
    (ingest (ingest store a).1 b).1 = (ingest store a).1 ∧
    ((ingest store a).1.filter
        (fun it => it.contentHash = contentHash a.text)).length = 1 := by
  have hnot : ∀ it ∈ store, ¬(it.contentHash = contentHash a.text) := by
    intro it hit
    have := List.any_eq_false.mp hfresh it hit
    simpa using this
  have st1 : ingest store a =
      (store ++ [⟨a.sourceId, a.sourceType, a.text, a.url, contentHash a.text, .pending, 0⟩],
        .accepted) := by
    simp [ingest, hfresh]
  have hdup : hasHash (ingest store a).1 (contentHash b.text) = true := by
    rw [st1]
    simp [hasHash, List.any_append, ← htext]
  have st2 : ingest (ingest store a).1 b = ((ingest store a).1, .duplicate) := by
    generalize hs : (ingest store a).1 = s at hdup ⊢
    simp [ingest, hdup]
  refine ⟨by rw [st1], by rw [st2], by rw [st2], ?_⟩
  rw [st1]
  rw [List.filter_append]
  rw [List.filter_eq_nil_iff.mpr (by intro it hit; simpa using hnot it hit)]
  simp

/-- C1 witness: the same raw text from two different sources against an
empty store. -/
theorem ingest_idempotent_witness :
    (ingest [] ⟨"Same text", "u1", "s1", "web"⟩).2 = .accepted ∧
    (ingest (ingest [] ⟨"Same text", "u1", "s1", "web"⟩).1
        ⟨"Same text", "u2", "s2", "twitter"⟩).2 = .duplicate ∧
    (ingest (ingest [] ⟨"Same text", "u1", "s1", "web"⟩).1
        ⟨"Same text", "u2", "s2", "twitter"⟩).1 = (ingest [] ⟨"Same text", "u1", "s1", "web"⟩).1 ∧
    ((ingest [] ⟨"Same text", "u1", "s1", "web"⟩).1.filter
        (fun it => it.contentHash = contentHash "Same text")).length = 1 :=
  ingest_idempotent [] ⟨"Same text", "u1", "s1", "web"⟩ ⟨"Same text", "u2", "s2", "twitter"⟩
    rfl rfl

/-- C4: the velocity score of a narrative is
`0.4 * min(signalCount, 50) + 0.3 * min(sourceDiversity, 10)
+ 0.2 * recencyFactor + 0.1 * noveltyAvg`, where `noveltyAvg` is the mean
of the per-signal weights (high 1.0, medium 0.6, low 0.3) and the recency
factor is floored at 0; consequently the score is never negative. -/
theorem velocity_formula_nonneg :
    (∀ (sc sd : Nat) (rate days : ℚ) (ns : List Novelty),
        velocityScore sc sd rate days ns =
          0.4 * min (sc : ℚ) 50 + 0.3 * min (sd : ℚ) 10
            + 0.2 * recencyFactor rate days + 0.1 * noveltyAvg ns) ∧
    (∀ ns, noveltyAvg ns * ns.length = if ns.length = 0 then 0 else (ns.map noveltyWeight).sum) ∧
    (∀ (sc sd : Nat) (rate days : ℚ) (ns : List Novelty),
        0 ≤ velocityScore sc sd rate days ns) := by
  refine ⟨fun _ _ _ _ _ => rfl, ?_, ?_⟩
  · intro ns
    by_cases h : ns.length = 0
    · simp [noveltyAvg, h]
    · have hne : (ns.length : ℚ) ≠ 0 := by
        exact_mod_cast h
      simp only [noveltyAvg, h, if_false]
      field_simp
  · intro sc sd rate days ns
    have h1 : (0 : ℚ) ≤ min (sc : ℚ) 50 := le_min (by positivity) (by norm_num)
    have h2 : (0 : ℚ) ≤ min (sd : ℚ) 10 := le_min (by positivity) (by norm_num)
    have h3 : (0 : ℚ) ≤ recencyFactor rate days := le_max_left 0 _
    have h4 : (0 : ℚ) ≤ noveltyAvg ns := by
      unfold noveltyAvg
      by_cases h : ns.length = 0
      · simp [h]
      · simp only [h, if_false]
        apply div_nonneg
        · apply List.sum_nonneg
          intro x hx
          rcases List.mem_map.mp hx with ⟨n, _, rfl⟩
          cases n <;> norm_num [noveltyWeight]
        · positivity
    unfold velocityScore
    nlinarith

/-- C5 counterexample: with the 10 percent daily rate the backend README
quotes, a narrative 10 days and 20 days past `lastDetectedAt` (all other
inputs held fixed) has the same velocity score — the recency factor has hit
its floor at 0 — so the score does not strictly decrease as `now` advances
past `lastDetectedAt`. -/
theorem velocity_decay_floor_cex :
    (10 : ℚ) < 20 ∧
    velocityScore 5 2 0.1 20 [.high] = velocityScore 5 2 0.1 10 [.high] := by
  constructor
  · norm_num
  · norm_num [velocityScore, recencyFactor, noveltyAvg, noveltyWeight]

/-- C5 (amended): with signal count, source diversity and novelty held
fixed, the velocity score strictly decreases as the days since
`lastDetectedAt` grow, as long as the recency factor has not yet reached
its floor at 0 (that is, while `rate * days < 1`); past the floor the score
stays constant. -/
theorem velocity_strict_decay (sc sd : Nat) (rate d1 d2 : ℚ) (ns : List Novelty)
    (hrate : 0 < rate) (hd1 : 0 ≤ d1) (hlt : d1 < d2) (hfloor : rate * d1 < 1) :
    velocityScore sc sd rate d2 ns < velocityScore sc sd rate d1 ns := by
  have hmul : rate * d1 < rate * d2 := by
    exact mul_lt_mul_of_pos_left hlt hrate
  have hrec : recencyFactor rate d2 < recencyFactor rate d1 := by
    unfold recencyFactor
    rw [max_eq_right (by linarith : (0 : ℚ) ≤ 1 - rate * d1)]
    exact max_lt (by linarith) (by linarith)
  unfold velocityScore
  linarith

/-- C5 witness: rate 1, moving from 0 days to 1 day since detection. -/
theorem velocity_strict_decay_witness :
    (0 : ℚ) < 1 ∧ (0 : ℚ) ≤ 0 ∧ (0 : ℚ) < 1 ∧ (1 : ℚ) * 0 < 1 ∧
    velocityScore 1 1 1 1 [] < velocityScore 1 1 1 0 [] :=
  ⟨one_pos, le_refl 0, one_pos, by simp,
    velocity_strict_decay 1 1 1 0 1 [] one_pos (le_refl 0) one_pos (by simp)⟩

/-- C3: narrative merge is exact match on normalized title. Starting from a
store with no narrative under the candidate key, two synthesis upserts whose
candidate titles agree after case folding and whitespace normalization leave
exactly one narrative row under that key — with summary, confidence and
tags from the second run, `updatedAt` and `lastDetectedAt` set to the
second run's `now` — and the evidence links of both runs are appended to
the prior links, none deleted. -/
theorem upsert_by_title (store : NarrativeStore) (c1 c2 : CandidateNarrative)
    (now1 now2 : Int)
    (hkey : normalizeTitle c2.title = normalizeTitle c1.title)
    (habsent : store.narratives.any
        (fun n => normalizeTitle n.title = normalizeTitle c1.title) = false) :
    ((upsertNarrative (upsertNarrative store c1 now1) c2 now2).narratives.filter
        (fun n => normalizeTitle n.title = normalizeTitle c1.title)) =
      [{ title := c1.title, summary := c2.summary, confidence := c2.confidence,
         tags := c2.tags, isActive := true, createdAt := now1,
         lastDetectedAt := now2, updatedAt := now2 }] ∧
    (upsertNarrative (upsertNarrative store c1 now1) c2 now2).links =
      store.links ++ candidateLinks (normalizeTitle c1.title) c1
        ++ candidateLinks (normalizeTitle c2.title) c2 := by
  have hnot : ∀ n ∈ store.narratives, ¬(normalizeTitle n.title = normalizeTitle c1.title) := by
    intro n hn
    have := List.any_eq_false.mp habsent n hn
    simpa using this
  have hstep1 : upsertNarrative store c1 now1 =
      ⟨store.narratives ++
          [⟨c1.title, c1.summary, c1.confidence, c1.tags, true, now1, now1, now1⟩],
        store.links ++ candidateLinks (normalizeTitle c1.title) c1⟩ := by
    simp [upsertNarrative, habsent]
  have hany2 : ((upsertNarrative store c1 now1).narratives.any
      (fun n => normalizeTitle n.title = normalizeTitle c2.title)) = true := by
    rw [hstep1]
    simp [List.any_append, hkey]
  have hstep2 : upsertNarrative (upsertNarrative store c1 now1) c2 now2 =
      ⟨(upsertNarrative store c1 now1).narratives.map (fun n =>
          if normalizeTitle n.title = normalizeTitle c2.title then
            { n with
              summary := c2.summary
              confidence := c2.confidence
              tags := c2.tags
              isActive := true
              lastDetectedAt := now2
              updatedAt := now2 }
          else n),
        (upsertNarrative store c1 now1).links ++ candidateLinks (normalizeTitle c2.title) c2⟩ := by
    generalize hs : upsertNarrative store c1 now1 = s at hany2 ⊢
    simp [upsertNarrative, hany2]
  constructor
  · rw [hstep2]
    simp only [hstep1, List.map_append]
    rw [List.filter_append]
    have hnil : (store.narratives.map (fun n =>
        if normalizeTitle n.title = normalizeTitle c2.title then
          { n with
            summary := c2.summary
            confidence := c2.confidence
            tags := c2.tags
            isActive := true
            lastDetectedAt := now2
            updatedAt := now2 }
        else n)).filter (fun n => normalizeTitle n.title = normalizeTitle c1.title) = [] := by
      apply List.filter_eq_nil_iff.mpr
      intro x hx
      rcases List.mem_map.mp hx with ⟨n, hn, rfl⟩
      have hx1 := hnot n hn
      have hne2 : ¬(normalizeTitle n.title = normalizeTitle c2.title) := by
        rw [hkey]; exact hx1
      simp [hne2, hx1]
    rw [hnil]
    simp [hkey]
  · rw [hstep2, hstep1]

/-- C3 witness: two runs naming the same title in case/whitespace variants
against an empty store. -/
theorem upsert_by_title_witness :
    ((upsertNarrative
        (upsertNarrative ⟨[], []⟩ ⟨"RWA  Boom", "s1", "high", ["rwa"], [(1, "e1")]⟩ 3)
        ⟨" rwa boom ", "s2", "medium", ["defi"], [(2, "e2")]⟩ 5).narratives.filter
      (fun n => normalizeTitle n.title = normalizeTitle "RWA  Boom")) =
      [{ title := "RWA  Boom", summary := "s2", confidence := "medium",
         tags := ["defi"], isActive := true, createdAt := 3,
         lastDetectedAt := 5, updatedAt := 5 }] ∧
    (upsertNarrative
        (upsertNarrative ⟨[], []⟩ ⟨"RWA  Boom", "s1", "high", ["rwa"], [(1, "e1")]⟩ 3)
        ⟨" rwa boom ", "s2", "medium", ["defi"], [(2, "e2")]⟩ 5).links =
      [] ++ candidateLinks (normalizeTitle "RWA  Boom") ⟨"RWA  Boom", "s1", "high", ["rwa"], [(1, "e1")]⟩
        ++ candidateLinks (normalizeTitle " rwa boom ") ⟨" rwa boom ", "s2", "medium", ["defi"], [(2, "e2")]⟩ :=
  upsert_by_title ⟨[], []⟩ ⟨"RWA  Boom", "s1", "high", ["rwa"], [(1, "e1")]⟩
    ⟨" rwa boom ", "s2", "medium", ["defi"], [(2, "e2")]⟩ 3 5 (by decide) rfl

/-- C6: staleness lifecycle. After a lifecycle pass, every narrative whose
`lastDetectedAt` is more than the 7-day staleness threshold before `now`
has `isActive = false`; and after a later synthesis upsert that relinks
evidence for a narrative title and bumps its `lastDetectedAt` to the fresh
`now2`, every narrative under that title key has `isActive = true` again
(this applies in particular to a store just deactivated by a lifecycle
pass). -/
theorem staleness_lifecycle (store : NarrativeStore) (now now2 : Int)
    (c : CandidateNarrative) :
    (∀ m ∈ (lifecyclePass store now).narratives,
        now - m.lastDetectedAt > stalenessThresholdDays → m.isActive = false) ∧
    (∀ m ∈ (upsertNarrative store c now2).narratives,
        normalizeTitle m.title = normalizeTitle c.title →
          m.isActive = true ∧ m.lastDetectedAt = now2) := by
  constructor
  · intro m hm hstale
    simp only [lifecyclePass, List.mem_map] at hm
    rcases hm with ⟨n, _, rfl⟩
    by_cases hcond : now - n.lastDetectedAt > stalenessThresholdDays
    · simp [hcond]
    · simp only [hcond, if_false] at hstale ⊢
  · intro m hm hkeym
    by_cases hb : store.narratives.any
        (fun n => normalizeTitle n.title = normalizeTitle c.title) = true
    · simp only [upsertNarrative, hb, if_true, List.mem_map] at hm
      rcases hm with ⟨n, hn, rfl⟩
      by_cases hc : normalizeTitle n.title = normalizeTitle c.title
      · simp [hc]
      · simp only [hc, if_false] at hkeym ⊢
    · have hb' : store.narratives.any
          (fun n => normalizeTitle n.title = normalizeTitle c.title) = false := by
        simpa using hb
      have hnot : ∀ n ∈ store.narratives,
          ¬(normalizeTitle n.title = normalizeTitle c.title) := by
        intro n hn
        have := List.any_eq_false.mp hb' n hn
        simpa using this
      simp only [upsertNarrative, hb', if_false, Bool.false_eq_true, List.mem_append,
        List.mem_singleton] at hm
      rcases hm with hm | rfl
      · exact absurd hkeym (hnot m hm)
      · exact ⟨rfl, rfl⟩

/-- C6 witness: one stale narrative deactivated by a pass at day 10, then
reactivated by an upsert of the same title at day 11. -/
theorem staleness_lifecycle_witness :
    ((10 : Int) - 0 > stalenessThresholdDays → False → True) ∧
    (∀ m ∈ (lifecyclePass
        ⟨[⟨"Old Theme", "s", "high", [], true, 0, 0, 0⟩], []⟩ 10).narratives,
      (10 : Int) - m.lastDetectedAt > stalenessThresholdDays → m.isActive = false) ∧
    (∀ m ∈ (upsertNarrative
        (lifecyclePass ⟨[⟨"Old Theme", "s", "high", [], true, 0, 0, 0⟩], []⟩ 10)
        ⟨"old  theme", "s2", "high", [], [(7, "fresh")]⟩ 11).narratives,
      normalizeTitle m.title = normalizeTitle "old  theme" →
        m.isActive = true ∧ m.lastDetectedAt = 11) :=
  ⟨fun _ h => h.elim,
    (staleness_lifecycle ⟨[⟨"Old Theme", "s", "high", [], true, 0, 0, 0⟩], []⟩ 10 11
      ⟨"old  theme", "s2", "high", [], [(7, "fresh")]⟩).1,
    (staleness_lifecycle
      (lifecyclePass ⟨[⟨"Old Theme", "s", "high", [], true, 0, 0, 0⟩], []⟩ 10) 10 11
      ⟨"old  theme", "s2", "high", [], [(7, "fresh")]⟩).2⟩

/-- C7 counterexample: `rank` is a field of the delivered narrative record,
not a pure read-time value. For a response narrative carrying `rank = 5`
normalized at read-time list position 1, `normalizeNarrative` delivers
rank 5, not the position — the stored field wins over the read-time
fallback. -/
theorem rank_is_delivered_cex :
    (normalizeNarrative rankedResponseNarrative (some 1)).rank = some 5 ∧
    (normalizeNarrative rankedResponseNarrative (some 1)).rank ≠ some 1 := by
  have h5 : (normalizeNarrative rankedResponseNarrative (some 1)).rank = some 5 := rfl
  refine ⟨h5, ?_⟩
  rw [h5]
  intro h
  exact absurd (Option.some.inj h) (by norm_num)

/-- C7 (amended): the rank delivered to clients comes from the response's
own `rank` field when the backend supplies one; the read-time position
(`offset + index + 1`) is only a fallback used when the response carries no
rank. -/
theorem rank_prefers_delivered (n : RawNarrative) (fb : Option ℚ) :
    (∀ r, n.rank = some r → (normalizeNarrative n fb).rank = some r) ∧
    (n.rank = none → (normalizeNarrative n fb).rank = fb) := by
  constructor
  · intro r hr
    simp [normalizeNarrative, hr]
  · intro hr
    simp [normalizeNarrative, hr]

/-- C7 witness: the delivered rank 5 survives normalization at fallback
position 1, and a rank-free response falls back to the position. -/
theorem rank_prefers_delivered_witness :
    (normalizeNarrative rankedResponseNarrative (some 1)).rank = some 5 ∧
    (normalizeNarrative { rankedResponseNarrative with rank := none } (some 1)).rank = some 1 :=
  ⟨(rank_prefers_delivered rankedResponseNarrative (some 1)).1 5 rfl,
    (rank_prefers_delivered { rankedResponseNarrative with rank := none } (some 1)).2 rfl⟩

/-- The source normalizer and the specification-shaped filter agree on
every JS value. -/
theorem evidenceItem_agrees (v : JsValue) :
    normalizeEvidenceItem v = evidenceItemSpec v := by
  by_cases hrec : jsIsRecord v = true
  · cases hev : getProp v "evidence" with
    | str e =>
      cases hsid : getProp v "signal_id" with
      | num x =>
        cases x with
        | finite q =>
          by_cases he : e = "" <;>
            simp [normalizeEvidenceItem, evidenceItemSpec, hrec, hev, hsid, he]
        | nan => simp [normalizeEvidenceItem, evidenceItemSpec, hrec, hev, hsid]
        | inf => simp [normalizeEvidenceItem, evidenceItemSpec, hrec, hev, hsid]
        | negInf => simp [normalizeEvidenceItem, evidenceItemSpec, hrec, hev, hsid]
      | str sid =>
        by_cases ht : jsTrim sid = ""
        · have hzero : jsStringToNumber sid = .finite 0 := by
            simp [jsStringToNumber, ht]
          simp [normalizeEvidenceItem, evidenceItemSpec, hrec, hev, hsid, ht, hzero]
        · cases hn : jsStringToNumber sid with
          | finite q =>
            by_cases he : e = "" <;>
              simp [normalizeEvidenceItem, evidenceItemSpec, hrec, hev, hsid, ht, hn, he]
          | nan =>
            simp [normalizeEvidenceItem, evidenceItemSpec, hrec, hev, hsid, ht, hn]
          | inf =>
            simp [normalizeEvidenceItem, evidenceItemSpec, hrec, hev, hsid, ht, hn]
          | negInf =>
            simp [normalizeEvidenceItem, evidenceItemSpec, hrec, hev, hsid, ht, hn]
      | jsUndefined => simp [normalizeEvidenceItem, evidenceItemSpec, hrec, hev, hsid]
      | jnull => simp [normalizeEvidenceItem, evidenceItemSpec, hrec, hev, hsid]
      | bool b => simp [normalizeEvidenceItem, evidenceItemSpec, hrec, hev, hsid]
      | arr l => simp [normalizeEvidenceItem, evidenceItemSpec, hrec, hev, hsid]
      | obj fs => simp [normalizeEvidenceItem, evidenceItemSpec, hrec, hev, hsid]
    | jsUndefined => simp [normalizeEvidenceItem, evidenceItemSpec, hrec, hev]
    | jnull => simp [normalizeEvidenceItem, evidenceItemSpec, hrec, hev]
    | bool b => simp [normalizeEvidenceItem, evidenceItemSpec, hrec, hev]
    | num x => simp [normalizeEvidenceItem, evidenceItemSpec, hrec, hev]
    | arr l => simp [normalizeEvidenceItem, evidenceItemSpec, hrec, hev]
    | obj fs => simp [normalizeEvidenceItem, evidenceItemSpec, hrec, hev]
  · have hrec' : jsIsRecord v = false := by
      simpa using hrec
    simp [normalizeEvidenceItem, evidenceItemSpec, hrec']

/-- Every element `normalizeStringArray` produces is a non-empty string. -/
theorem mem_normalizeStringArray_ne_empty (v : JsValue) (s : String)
    (hs : s ∈ normalizeStringArray v) : s ≠ "" := by
  cases v with
  | arr l =>
    simp only [normalizeStringArray] at hs
    have := (List.mem_filter.mp hs).2
    exact of_decide_eq_true this
  | jsUndefined => simp [normalizeStringArray] at hs
  | jnull => simp [normalizeStringArray] at hs
  | bool b => simp [normalizeStringArray] at hs
  | num x => simp [normalizeStringArray] at hs
  | str t => simp [normalizeStringArray] at hs
  | obj fs => simp [normalizeStringArray] at hs

/-- C8: normalization postcondition. `normalizeEvidenceItem` keeps exactly
the entries whose `evidence` is a non-empty string and whose `signal_id` is
a finite number (numeric strings parsed, everything else dropped), with the
missing descriptive fields defaulting to the empty string; the delivered
`key_evidence` is the filtered normalization of the raw array (and `[]`
when the raw field is not an array); and the delivered `tags` and
`supporting_source_names` only ever contain non-empty strings, whatever the
raw fields were. -/
theorem evidence_normalization_postcondition :
    (∀ v, normalizeEvidenceItem v = evidenceItemSpec v) ∧
    (∀ n fb, (normalizeNarrative n fb).key_evidence =
        (match n.key_evidence with
         | JsValue.arr l => l.filterMap evidenceItemSpec
         | _ => [])) ∧
    (∀ n fb, ∀ s ∈ (normalizeNarrative n fb).tags, s ≠ "") ∧
    (∀ n fb, ∀ s ∈ (normalizeNarrative n fb).supporting_source_names, s ≠ "") := by
  have hfun : normalizeEvidenceItem = evidenceItemSpec := funext evidenceItem_agrees
  refine ⟨evidenceItem_agrees, ?_, ?_, ?_⟩
  · intro n fb
    show (match n.key_evidence with
      | JsValue.arr l => l.filterMap normalizeEvidenceItem
      | _ => []) = _
    rw [hfun]
  · intro n fb s hs
    exact mem_normalizeStringArray_ne_empty n.tags s hs
  · intro n fb s hs
    exact mem_normalizeStringArray_ne_empty n.supporting_source_names s hs

/-- C8 witness: the non-empty-string guarantees applied to concrete
elements of a messy response. -/
theorem evidence_normalization_witness :
    ("solana" : String) ≠ "" ∧ ("reddit" : String) ≠ "" :=
  ⟨evidence_normalization_postcondition.2.2.1 messyResponseNarrative none "solana" (by decide),
    evidence_normalization_postcondition.2.2.2 messyResponseNarrative none "reddit" (by decide)⟩

/-- C10 counterexample: an ok-status (200) response whose body is not valid
JSON makes `apiGet` reject (with the error `res.json()` raises, not an
`HttpError`) instead of returning a parsed JSON body — so "returns the
parsed JSON body if and only if the response status is ok" fails as stated
at this input. -/
theorem apiGet_ok_nonjson_cex :
    ((⟨200, none, some "<html>not json</html>"⟩ : HttpResponse).ok = true) ∧
    apiGet "http://a" "/p" [] (fun _ => ⟨200, none, some "<html>not json</html>"⟩) =
      Except.error (.bodyNotJson 200) :=
  ⟨rfl, rfl⟩

/-- C10 (amended): `apiGet` returns the parsed JSON body exactly when the
response status is ok and the body parses as JSON (an ok response whose
body is not JSON rejects with a non-`HttpError` parse failure); every
non-ok response raises an `HttpError` whose status equals the response's
status code; query parameters bound to null or undefined are omitted from
the request URL; and an unset API base URL makes `buildUrl` throw before
any request is made (the result does not depend on the fetch function). -/
theorem apiGet_error_contract :
    (∀ base path q f url, buildUrl base path q = .ok url →
        ((f url).ok = true →
          apiGet base path q f =
            (match (f url).jsonBody with
             | some v => Except.ok v
             | none => Except.error (.bodyNotJson (f url).status))) ∧
        ((f url).ok = false →
          apiGet base path q f =
            Except.error (.httpError
              ("GET " ++ path ++ " failed (" ++ toString (f url).status ++ ")")
              (f url).status
              (match (f url).jsonBody, (f url).textBody with
               | some v, _ => .json v
               | none, some s => .text s
               | none, none => .jsUndefined)))) ∧
    (∀ base path q v f, apiGet base path q f = .ok v →
        ∃ url, buildUrl base path q = .ok url ∧
          (f url).ok = true ∧ (f url).jsonBody = some v) ∧
    (∀ base path q, buildUrl base path q =
        buildUrl base path (q.filter (fun kv => ¬kv.2.isNullish = true))) ∧
    (∀ base path q f g, stripTrailingSlashes base = "" →
        apiGet base path q f = apiGet base path q g ∧
        apiGet base path q f = .error (.urlError "NEXT_PUBLIC_API_URL is not set")) := by
  refine ⟨?_, ?_, ?_, ?_⟩
  · intro base path q f url hurl
    constructor
    · intro hok
      simp only [apiGet, hurl]
      cases hj : (f url).jsonBody <;> simp [hok, hj]
    · intro hok
      simp only [apiGet, hurl, hok, Bool.false_eq_true, if_false]
      cases hj : (f url).jsonBody with
      | some v => simp
      | none => cases ht : (f url).textBody <;> simp
  · intro base path q v f hok
    cases hurl : buildUrl base path q with
    | error m => simp [apiGet, hurl] at hok
    | ok url =>
      refine ⟨url, rfl, ?_⟩
      simp only [apiGet, hurl] at hok
      by_cases hresok : (f url).ok = true
      · cases hj : (f url).jsonBody with
        | some w =>
          simp only [hresok, if_true, hj] at hok
          exact ⟨hresok, congrArg some (Except.ok.inj hok)⟩
        | none => simp [hresok, hj] at hok
      · simp only [Bool.not_eq_true] at hresok
        simp [hresok] at hok
  · intro base path q
    by_cases hbase : stripTrailingSlashes base = ""
    · simp [buildUrl, hbase]
    · have hff : (q.filter (fun kv => ¬kv.2.isNullish = true)).filter
          (fun kv => ¬kv.2.isNullish = true) =
          q.filter (fun kv => ¬kv.2.isNullish = true) := by
        rw [List.filter_filter]
        apply List.filter_congr
        intro kv _
        simp
      simp only [buildUrl, hbase, if_false]
      rw [hff]
  · intro base path q f g hbase
    have hb : buildUrl base path q = .error "NEXT_PUBLIC_API_URL is not set" := by
      simp [buildUrl, hbase]
    constructor
    · simp [apiGet, hb]
    · simp [apiGet, hb]

/-- C10 witness: a successful JSON GET against a concrete base, and the
unset-base throw with two different fetch functions. -/
theorem apiGet_error_contract_witness :
    (∃ url, buildUrl "http://a" "/p" [] = .ok url ∧
        ((fun _ => (⟨200, some (.str "body"), none⟩ : HttpResponse)) url).ok = true ∧
        ((fun _ => (⟨200, some (.str "body"), none⟩ : HttpResponse)) url).jsonBody =
          some (.str "body")) ∧
    apiGet "" "/p" [] (fun _ => (⟨200, some (.str "body"), none⟩ : HttpResponse)) =
      .error (.urlError "NEXT_PUBLIC_API_URL is not set") :=
  ⟨apiGet_error_contract.2.1 "http://a" "/p" [] (.str "body")
      (fun _ => ⟨200, some (.str "body"), none⟩) rfl,
    (apiGet_error_contract.2.2.2 "" "/p" []
      (fun _ => ⟨200, some (.str "body"), none⟩)
      (fun _ => ⟨404, none, none⟩) rfl).2⟩

end SolRadar
